import Mathlib

/-!
Verification development for the Enneagram quiz application.

The definitions below are a shallow embedding of the Python source:

* `app/services/quiz_service.py` — `QuizService.reverse_score`,
  `QuizService.calculate_validity_stats`, `QuizService.calculate_type_scores`,
  `QuizService.determine_top_type`, `QuizService.calculate_wings`,
  `QuizService.process_quiz_submission`.
* `app/api/quiz.py` — `calculate_team_stats` (type counts, distribution
  percentages, missing / underrepresented / dominant types, balance score).
* `app/core/security.py` — `sanitize_input`.

Conventions of the embedding:

* Python `int` values are `ℤ`; the question-answer mapping
  `quiz_answers : Dict[str, int]` keyed by `"q_<id>"` is a function
  `Nat → Option ℤ` keyed by the question id (`none` = key absent);
  `dict.get(key, 0)` becomes `(answers id).getD 0`.
* A category score profile (a dict with keys 1..9) is a function `Nat → ℤ`.
* Python float arithmetic is idealised as exact arithmetic over `ℚ` / `ℝ`
  (`x ** 0.5` on a non-negative float becomes `Real.sqrt`); `round(x, 1)`
  becomes rounding to the nearest tenth.
* Python exceptions raised by the pipeline become `Except String`.
* A team row (a dict with a `'Top Type'` entry parsed by `int(...)`) is
  modelled by that parsed integer, so a team is a `List ℤ`.
-/

/-- Embeds the pydantic `Question` schema (`app/models/schemas.py`):
id, text, category (`type`, constrained 1..9 by the schema) and the
reverse-scoring flag. -/
structure Question where
  id : Nat
  text : String
  type : Nat
  reverse : Bool
deriving DecidableEq, Repr

/-- Embeds `QuizService.reverse_score`: values outside 1..5 map to 0,
otherwise `6 - value`. -/
def reverse_score (value : ℤ) : ℤ :=
  if value < 1 ∨ 5 < value then 0 else 6 - value

/-- Embeds the per-question score in `QuizService.calculate_type_scores`:
apply reverse scoring when the question's `reverse` flag is set. -/
def score_value (q : Question) (raw : ℤ) : ℤ :=
  if q.reverse then reverse_score raw else raw

/-- Embeds `QuizService.calculate_type_scores`: fold over the question
bank, adding each question's (possibly reverse-corrected) answer value to
the accumulator at the question's category; missing answers default to 0
(`quiz_answers.get(key, 0)`). -/
def calculate_type_scores (bank : List Question) (answers : Nat → Option ℤ) :
    Nat → ℤ :=
  bank.foldl
    (fun acc q =>
      Function.update acc q.type (acc q.type + score_value q ((answers q.id).getD 0)))
    (fun _ => 0)

/-- Spec-modelled reverse correction, written from the spec's words for
claim comparison: the reverse-corrected value of a question is `6 - v` if
its reverse flag is set and `v` is in 1..5, `0` if its reverse flag is set
and `v` is outside 1..5, and `v` unchanged otherwise. -/
def corrected_value (answers : Nat → Option ℤ) (q : Question) : ℤ :=
  let v := (answers q.id).getD 0
  if q.reverse then (if 1 ≤ v ∧ v ≤ 5 then 6 - v else 0) else v

lemma score_value_eq_corrected (answers : Nat → Option ℤ) (q : Question) :
    score_value q ((answers q.id).getD 0) = corrected_value answers q := by
  simp only [score_value, corrected_value, reverse_score]
  split_ifs <;> omega

lemma foldl_scores_sum (answers : Nat → Option ℤ) :
    ∀ (bank : List Question) (acc : Nat → ℤ),
      (∀ q ∈ bank, 1 ≤ q.type ∧ q.type ≤ 9) →
      Finset.sum (Finset.Icc 1 9)
          (bank.foldl
            (fun acc q =>
              Function.update acc q.type
                (acc q.type + score_value q ((answers q.id).getD 0))) acc) =
        Finset.sum (Finset.Icc 1 9) acc +
          (bank.map (fun q => score_value q ((answers q.id).getD 0))).sum := by
  intro bank
  induction bank with
  | nil => intro acc _; simp
  | cons q bank ih =>
    intro acc hq
    have hmem : q.type ∈ Finset.Icc 1 9 := by
      have := hq q (List.mem_cons_self q bank)
      simp only [Finset.mem_Icc]
      omega
    have hrest : ∀ r ∈ bank, 1 ≤ r.type ∧ r.type ≤ 9 := by
      intro r hr
      exact hq r (List.mem_cons_of_mem q hr)
    simp only [List.foldl_cons, List.map_cons, List.sum_cons]
    rw [ih _ hrest]
    rw [Finset.sum_update_of_mem hmem,
      Finset.sum_sdiff_eq_sub (Finset.singleton_subset_iff.mpr hmem),
      Finset.sum_singleton]
    ring

/-- C2: for every question bank whose categories lie in 1..9 and every
answer set answering every question, the sum over categories 1..9 of the
scorer's per-category totals equals the sum over all questions of the
reverse-corrected answer values. -/
theorem scorer_sum_preservation (bank : List Question) (answers : Nat → Option ℤ)
    (htypes : ∀ q ∈ bank, 1 ≤ q.type ∧ q.type ≤ 9)
    (_hcomplete : ∀ q ∈ bank, (answers q.id).isSome) :
    Finset.sum (Finset.Icc 1 9) (calculate_type_scores bank answers) =
      (bank.map (corrected_value answers)).sum := by
  unfold calculate_type_scores
  rw [foldl_scores_sum answers bank _ htypes]
  have hmap : (bank.map (fun q => score_value q ((answers q.id).getD 0))) =
      bank.map (corrected_value answers) := by
    apply List.map_congr_left
    intro q _
    exact score_value_eq_corrected answers q
  rw [hmap]
  simp

/-- Example question bank used for concrete evaluations: one reversed
question of category 1 and one plain question of category 2. -/
def bank_ex : List Question :=
  [⟨1, "a", 1, true⟩, ⟨2, "b", 2, false⟩]

/-- Example complete answer set for `bank_ex`. -/
def answers_ex : Nat → Option ℤ :=
  fun i => if i = 1 then some 2 else if i = 2 then some 5 else none

/-- Witness for C2 at a concrete bank and answer set. -/
theorem scorer_sum_preservation_witness :
    Finset.sum (Finset.Icc 1 9) (calculate_type_scores bank_ex answers_ex) =
      (bank_ex.map (corrected_value answers_ex)).sum :=
  scorer_sum_preservation bank_ex answers_ex (by decide) (by decide)

/-- The nine category keys, in the ascending order in which
`calculate_type_scores` initialises and `determine_top_type` iterates
them. -/
def types_list : List Nat := [1, 2, 3, 4, 5, 6, 7, 8, 9]

/-- Embeds `max(type_scores.values())` in `QuizService.determine_top_type`. -/
def max_score (s : Nat → ℤ) : ℤ :=
  List.foldl max (s 1) (List.map s [2, 3, 4, 5, 6, 7, 8, 9])

/-- Embeds the tied-types list comprehension in
`QuizService.determine_top_type` (categories whose score equals the
maximum, in ascending order — the order `sorted(tied_types)` produces). -/
def tied_types (s : Nat → ℤ) : List Nat :=
  types_list.filter (fun t => s t = max_score s)

/-- Embeds the `centers` / `center_map` tables in
`QuizService.determine_top_type`: each category's cluster total, taken
from the original profile (gut = 8+9+1, heart = 2+3+4, head = 5+6+7). -/
def center_score (s : Nat → ℤ) (t : Nat) : ℤ :=
  if t = 1 ∨ t = 8 ∨ t = 9 then s 8 + s 9 + s 1
  else if t = 2 ∨ t = 3 ∨ t = 4 then s 2 + s 3 + s 4
  else s 5 + s 6 + s 7

/-- Embeds one iteration of the tie-break loop in
`QuizService.determine_top_type`: update the running best when the
category's cluster total strictly exceeds the best so far. -/
def tie_step (c : Nat → ℤ) (acc : Option Nat × ℤ) (t : Nat) : Option Nat × ℤ :=
  if c t > acc.2 then (some t, c t) else acc

/-- Embeds `QuizService.determine_top_type`: returns the top category
(`none` models Python's `best_type = None` staying unassigned) together
with the tied list. The tie-break loop starts from
`best_type = None, best_center_score = -1`. -/
def determine_top_type (s : Nat → ℤ) : Option Nat × List Nat :=
  let tied := tied_types s
  if tied.length = 1 then (tied.head?, tied)
  else ((tied.foldl (tie_step (center_score s)) (none, -1)).1, tied)

lemma tie_foldl_const (c : Nat → ℤ) :
    ∀ (l : List Nat) (b : Option Nat) (s : ℤ),
      (∀ t ∈ l, c t ≤ s) → l.foldl (tie_step c) (b, s) = (b, s) := by
  intro l
  induction l with
  | nil => intro b s _; rfl
  | cons a l ih =>
    intro b s hle
    have ha : c a ≤ s := hle a (List.mem_cons_self a l)
    simp only [List.foldl_cons, tie_step]
    rw [if_neg (by omega)]
    exact ih b s (fun t ht => hle t (List.mem_cons_of_mem a ht))

lemma tie_foldl_spec (c : Nat → ℤ) :
    ∀ (l : List Nat) (b : Option Nat) (s : ℤ),
      (∃ t ∈ l, s < c t) →
      ∃ l₁ t l₂, l = l₁ ++ t :: l₂ ∧
        l.foldl (tie_step c) (b, s) = (some t, c t) ∧
        (∀ u ∈ l₁, c u < c t) ∧ (∀ u ∈ l₂, c u ≤ c t) ∧ s < c t := by
  intro l
  induction l with
  | nil => intro b s h; simp at h
  | cons a l ih =>
    intro b s hex
    by_cases ha : s < c a
    · simp only [List.foldl_cons, tie_step]
      rw [if_pos (by omega)]
      by_cases hl : ∃ t ∈ l, c a < c t
      · obtain ⟨l₁, t, l₂, hdecomp, hfold, hbefore, hafter, hlt⟩ :=
          ih (some a) (c a) hl
        refine ⟨a :: l₁, t, l₂, by rw [hdecomp]; rfl, hfold, ?_, hafter, ?_⟩
        · intro u hu
          rcases List.mem_cons.mp hu with h | h
          · subst h; exact hlt
          · exact hbefore u h
        · omega
      · push_neg at hl
        refine ⟨[], a, l, rfl, tie_foldl_const c l (some a) (c a) hl, ?_, hl, ha⟩
        intro u hu
        simp at hu
    · simp only [List.foldl_cons, tie_step]
      rw [if_neg (by omega)]
      have hex' : ∃ t ∈ l, s < c t := by
        obtain ⟨t, ht, hst⟩ := hex
        rcases List.mem_cons.mp ht with h | h
        · subst h; omega
        · exact ⟨t, h, hst⟩
      obtain ⟨l₁, t, l₂, hdecomp, hfold, hbefore, hafter, hlt⟩ := ih b s hex'
      refine ⟨a :: l₁, t, l₂, by rw [hdecomp]; rfl, hfold, ?_, hafter, hlt⟩
      intro u hu
      rcases List.mem_cons.mp hu with h | h
      · subst h; omega
      · exact hbefore u h

lemma tied_types_pairwise (s : Nat → ℤ) :
    (tied_types s).Pairwise (· < ·) := by
  have hl : types_list.Pairwise (fun a b : Nat => a < b) := by decide
  exact List.Pairwise.filter _ hl

/-- Concrete score profile for C1: categories 1 and 9 score 10, all other
categories score 0. -/
def profile19 : Nat → ℤ := fun t => if t = 1 ∨ t = 9 then 10 else 0

/-- C1: when more than one category ties for the maximum, the classifier
returns a tied category whose cluster total (Cluster A = 8+9+1,
B = 2+3+4, C = 5+6+7, from the original profile) is maximal among the
tied categories and strictly exceeds the cluster total of every
lower-numbered tied category — i.e. the lowest-numbered tied category
attaining the greatest cluster total; and for the profile with
categories 1 and 9 at 10 and all others 0 the result is top = 1. -/
theorem classifier_tie_cluster_resolution :
    (∀ s : Nat → ℤ, (∀ t ∈ types_list, 0 ≤ s t) → 1 < (tied_types s).length →
      ∃ t, (determine_top_type s).1 = some t ∧ t ∈ tied_types s ∧
        (∀ u ∈ tied_types s, center_score s u ≤ center_score s t) ∧
        (∀ u ∈ tied_types s, u < t → center_score s u < center_score s t)) ∧
    (determine_top_type profile19).1 = some 1 := by
  constructor
  · intro s hnn htie
    have hne : tied_types s ≠ [] := by
      intro h
      rw [h] at htie
      simp at htie
    obtain ⟨t₀, ht₀⟩ := List.exists_mem_of_ne_nil _ hne
    have hc0 : ∀ u ∈ tied_types s, 0 ≤ center_score s u := by
      intro u _
      have h1 := hnn 1 (by decide)
      have h2 := hnn 2 (by decide)
      have h3 := hnn 3 (by decide)
      have h4 := hnn 4 (by decide)
      have h5 := hnn 5 (by decide)
      have h6 := hnn 6 (by decide)
      have h7 := hnn 7 (by decide)
      have h8 := hnn 8 (by decide)
      have h9 := hnn 9 (by decide)
      unfold center_score
      split_ifs <;> omega
    have hex : ∃ t ∈ tied_types s, (-1 : ℤ) < center_score s t := by
      refine ⟨t₀, ht₀, ?_⟩
      have := hc0 t₀ ht₀
      omega
    obtain ⟨l₁, t, l₂, hdecomp, hfold, hbefore, hafter, _⟩ :=
      tie_foldl_spec (center_score s) (tied_types s) none (-1) hex
    have htop : (determine_top_type s).1 = some t := by
      unfold determine_top_type
      rw [if_neg (by omega)]
      rw [hfold]
    have hmem : t ∈ tied_types s := by
      rw [hdecomp]
      exact List.mem_append_right l₁ (List.mem_cons_self t l₂)
    have hpw := tied_types_pairwise s
    rw [hdecomp] at hpw
    have hpw' := (List.pairwise_append.mp hpw).2.1
    have hl₂gt : ∀ u ∈ l₂, t < u := (List.pairwise_cons.mp hpw').1
    refine ⟨t, htop, hmem, ?_, ?_⟩
    · intro u hu
      rw [hdecomp] at hu
      rcases List.mem_append.mp hu with h | h
      · exact le_of_lt (hbefore u h)
      · rcases List.mem_cons.mp h with h' | h'
        · subst h'; exact le_refl _
        · exact hafter u h'
    · intro u hu hut
      rw [hdecomp] at hu
      rcases List.mem_append.mp hu with h | h
      · exact hbefore u h
      · rcases List.mem_cons.mp h with h' | h'
        · subst h'; omega
        · have := hl₂gt u h'
          omega
  · decide

/-- Witness for C1 at the profile scoring 10 on categories 1 and 9: the
tie set is {1, 9} and the classifier picks a tied category with maximal
cluster total. -/
theorem classifier_tie_cluster_resolution_witness :
    (∀ t ∈ types_list, 0 ≤ profile19 t) ∧ 1 < (tied_types profile19).length ∧
      ∃ t, (determine_top_type profile19).1 = some t ∧ t ∈ tied_types profile19 := by
  refine ⟨by decide, by decide, ?_⟩
  obtain ⟨t, h1, h2, _, _⟩ :=
    classifier_tie_cluster_resolution.1 profile19 (by decide) (by decide)
  exact ⟨t, h1, h2⟩

/-- Embeds the `wing_map` table with its `.get(top_type, [])` default in
`QuizService.calculate_wings`. -/
def wing_map (t : Nat) : List Nat :=
  if t = 1 then [9, 2] else if t = 2 then [1, 3] else if t = 3 then [2, 4]
  else if t = 4 then [3, 5] else if t = 5 then [4, 6] else if t = 6 then [5, 7]
  else if t = 7 then [6, 8] else if t = 8 then [7, 9] else if t = 9 then [8, 1]
  else []

/-- Embeds `QuizService.calculate_wings`: look up the two adjacent wings,
return `(None, 0)` when the table has no entry, otherwise the
higher-scoring wing with its score — the first-listed wing on `>=`. -/
def calculate_wings (top : Nat) (s : Nat → ℤ) : Option Nat × ℤ :=
  match wing_map top with
  | a :: b :: _ => if s a ≥ s b then (some a, s a) else (some b, s b)
  | _ => (none, 0)

/-- Concrete profile for C3: neighbors 4 and 6 both score 7. -/
def profile_equal_wings : Nat → ℤ := fun t => if t = 4 ∨ t = 6 then 7 else 0

/-- Concrete profile for C3: neighbor 4 scores 3, neighbor 6 scores 9. -/
def profile_right_wing : Nat → ℤ :=
  fun t => if t = 4 then 3 else if t = 6 then 9 else 0

/-- C3: for every top category in 1..9 the wing table lists exactly the
two ring-adjacent neighbors, and the resolver returns the higher-scoring
neighbor, with the first-listed neighbor winning exact ties; for top = 5
the profile with both neighbors at 7 yields wing 4, and the profile with
4 ↦ 3, 6 ↦ 9 yields wing 6. -/
theorem wing_resolver_adjacency :
    (∀ top, 1 ≤ top → top ≤ 9 →
      wing_map top =
        [if top = 1 then 9 else top - 1, if top = 9 then 1 else top + 1]) ∧
    (∀ top a b (s : Nat → ℤ), wing_map top = [a, b] →
      (s b < s a → calculate_wings top s = (some a, s a)) ∧
      (s a < s b → calculate_wings top s = (some b, s b)) ∧
      (s a = s b → calculate_wings top s = (some a, s a))) ∧
    calculate_wings 5 profile_equal_wings = (some 4, 7) ∧
    calculate_wings 5 profile_right_wing = (some 6, 9) := by
  refine ⟨?_, ?_, by decide, by decide⟩
  · intro top h1 h2
    interval_cases top <;> rfl
  · intro top a b s h
    have hw : calculate_wings top s =
        if s a ≥ s b then (some a, s a) else (some b, s b) := by
      unfold calculate_wings
      rw [h]
    refine ⟨?_, ?_, ?_⟩ <;> intro h' <;> rw [hw]
    · rw [if_pos (le_of_lt h')]
    · rw [if_neg (by omega)]
    · rw [if_pos (le_of_eq h'.symm)]

/-- Witness for C3: the adjacency entry for top = 5 and the resolver
outcome for a profile where neighbor 6 strictly beats neighbor 4. -/
theorem wing_resolver_adjacency_witness :
    wing_map 5 = [4, 6] ∧ calculate_wings 5 profile_right_wing = (some 6, 9) := by
  refine ⟨wing_resolver_adjacency.1 5 (by decide) (by decide), ?_⟩
  exact (wing_resolver_adjacency.2.1 5 4 6 profile_right_wing (by decide)).2.1
    (by decide)

/-- Embeds the pydantic `ValidityStats` schema: mean and population
standard deviation of the raw answer values. -/
structure ValidityStats where
  mean : ℝ
  sd : ℝ

/-- Embeds `QuizService.calculate_validity_stats`: the empty list returns
mean 0.0 and sd 0.0; otherwise the arithmetic mean and the square root of
the population variance (`variance ** 0.5` on a non-negative float). -/
noncomputable def calculate_validity_stats (all_values : List ℤ) : ValidityStats :=
  if all_values = [] then ⟨0, 0⟩
  else
    let n : ℝ := all_values.length
    let mean : ℝ := (all_values.sum : ℝ) / n
    let variance : ℝ := (all_values.map (fun x => ((x : ℝ) - mean) ^ 2)).sum / n
    ⟨mean, Real.sqrt variance⟩

/-- Spec-modelled arithmetic mean, written from the spec's words for
claim comparison. -/
noncomputable def arithmetic_mean (vals : List ℤ) : ℝ :=
  (vals.sum : ℝ) / vals.length

/-- Spec-modelled population standard deviation (variance divided by N,
not N - 1), written from the spec's words for claim comparison. -/
noncomputable def population_sd (vals : List ℤ) : ℝ :=
  Real.sqrt ((vals.map (fun x => ((x : ℝ) - arithmetic_mean vals) ^ 2)).sum /
    vals.length)

/-- C6: the validity analyzer returns mean 0.0 and sd 0.0 on the empty
list, returns the arithmetic mean and the population standard deviation
(divide by N) on every non-empty list of raw values, and on [3,3,3,3]
returns mean 3.0 and sd 0.0. -/
theorem validity_stats_mean_population_sd :
    calculate_validity_stats [] = ⟨0, 0⟩ ∧
    (∀ vals : List ℤ, vals ≠ [] →
      calculate_validity_stats vals = ⟨arithmetic_mean vals, population_sd vals⟩) ∧
    calculate_validity_stats [3, 3, 3, 3] = ⟨3, 0⟩ := by
  refine ⟨by simp [calculate_validity_stats], ?_, ?_⟩
  · intro vals h
    unfold calculate_validity_stats arithmetic_mean population_sd
    rw [if_neg h]
    rfl
  · unfold calculate_validity_stats
    rw [if_neg (by decide)]
    simp only [List.map_cons, List.map_nil, List.sum_cons, List.sum_nil,
      List.length_cons, List.length_nil]
    norm_num [ValidityStats.mk.injEq, Real.sqrt_eq_zero']

/-- Witness for C6 at the concrete list [3,3,3,3]. -/
theorem validity_stats_mean_population_sd_witness :
    calculate_validity_stats [3, 3, 3, 3] =
      ⟨arithmetic_mean [3, 3, 3, 3], population_sd [3, 3, 3, 3]⟩ :=
  validity_stats_mean_population_sd.2.1 [3, 3, 3, 3] (by decide)

/-- Embeds the type-counting loop in `calculate_team_stats`
(`app/api/quiz.py`): a row increments the count of category `t` exactly
when its parsed `Top Type` value equals `t` (the loop's `1 <= top <= 9`
guard is implied for `t` in 1..9). -/
def type_counts (rows : List ℤ) (t : Nat) : Nat :=
  rows.countP (fun x => x = (t : ℤ))

/-- Embeds `total_members = len(team_data)` in `calculate_team_stats`. -/
def total_members (rows : List ℤ) : Nat := rows.length

/-- Python `round(x, 1)` over the rationals: round to the nearest tenth. -/
def round1Q (x : ℚ) : ℚ := ((round (10 * x) : ℤ) : ℚ) / 10

/-- Python `round(x, 1)` over the reals: round to the nearest tenth. -/
noncomputable def round1R (x : ℝ) : ℝ := ((round (10 * x) : ℤ) : ℝ) / 10

/-- Embeds the per-category distribution percentage in
`calculate_team_stats`: `count / total_members * 100` when the team is
non-empty, `0` otherwise, rounded to 1 decimal. -/
def percentage (rows : List ℤ) (t : Nat) : ℚ :=
  round1Q
    (if 0 < rows.length then (type_counts rows t : ℚ) / rows.length * 100 else 0)

/-- Embeds `missing_types` in `calculate_team_stats`: all of 1..9 for an
empty team (the early-return branch), otherwise the categories with
count 0. -/
def missing_types (rows : List ℤ) : List Nat :=
  if rows = [] then List.range' 1 9
  else (List.range' 1 9).filter (fun t => type_counts rows t = 0)

/-- Embeds `underrepresented_types` in `calculate_team_stats`: empty for
an empty team, otherwise the categories with count exactly 1, guarded by
`total_members > 3`. -/
def underrepresented_types (rows : List ℤ) : List Nat :=
  if rows = [] then []
  else (List.range' 1 9).filter
    (fun t => type_counts rows t = 1 ∧ 3 < rows.length)

/-- Embeds `dominant_threshold = max(2, avg_per_type * 1.5)` in
`calculate_team_stats`. -/
def dominant_threshold (total : Nat) : ℚ := max 2 ((total : ℚ) / 9 * (3 / 2))

/-- Embeds `dominant_types` in `calculate_team_stats`: empty for an empty
team, otherwise (under the code's `total_members > 0` guard) the
categories whose count reaches the dominant threshold. -/
def dominant_types (rows : List ℤ) : List Nat :=
  if rows = [] then []
  else if 0 < rows.length then
    (List.range' 1 9).filter
      (fun t => dominant_threshold rows.length ≤ (type_counts rows t : ℚ))
  else []

/-- Embeds the local `variance` of `calculate_team_stats`: the squared
deviations of the 9 counts from `expected_per_type = total_members / 9`,
averaged over the 9 categories. -/
noncomputable def team_variance (rows : List ℤ) : ℝ :=
  Finset.sum (Finset.Icc 1 9)
    (fun t => ((type_counts rows t : ℝ) - (rows.length : ℝ) / 9) ^ 2) / 9

/-- Embeds the local `max_possible_std` of `calculate_team_stats`:
`((total_members ** 2) / 9) ** 0.5`. -/
noncomputable def max_possible_std (rows : List ℤ) : ℝ :=
  Real.sqrt ((rows.length : ℝ) ^ 2 / 9)

/-- Embeds the balance-score computation in `calculate_team_stats`:
0.0 for an empty team (the early-return branch), otherwise
`std_dev / max_possible_std` (0 when `max_possible_std` is not positive),
mapped to `max(0, 100 * (1 - normalized_std))` and rounded to 1
decimal. -/
noncomputable def balance_score (rows : List ℤ) : ℝ :=
  if rows = [] then 0
  else round1R (max 0 (100 * (1 -
    (if 0 < max_possible_std rows
     then Real.sqrt (team_variance rows) / max_possible_std rows else 0))))

/-- Spec-modelled population standard deviation of the 9 per-category
counts, written from the spec's words for claim comparison (deviations
are taken from the mean of the 9 counts). -/
noncomputable def population_std_counts (rows : List ℤ) : ℝ :=
  Real.sqrt (Finset.sum (Finset.Icc 1 9)
    (fun t => ((type_counts rows t : ℝ) -
      Finset.sum (Finset.Icc 1 9) (fun u => (type_counts rows u : ℝ)) / 9) ^ 2) / 9)

/-- Spec-modelled balance score, written from the spec's words for claim
comparison: `max(0, 100 * (1 - std/max_std))` rounded to 1 decimal, where
`std` is the population standard deviation of the 9 per-category counts
and `max_std = sqrt(total_members^2 / 9)`; 0.0 when `total_members = 0`. -/
noncomputable def balance_score_spec (rows : List ℤ) : ℝ :=
  if rows = [] then 0
  else round1R (max 0 (100 *
    (1 - population_std_counts rows / max_possible_std rows)))

lemma indicator_sum_icc (a : ℤ) :
    Finset.sum (Finset.Icc 1 9) (fun t : ℕ => if a = (t : ℤ) then 1 else 0) =
      if 1 ≤ a ∧ a ≤ 9 then 1 else 0 := by
  by_cases h : 1 ≤ a ∧ a ≤ 9
  · rw [if_pos h]
    have hcongr : ∀ t ∈ Finset.Icc (1 : ℕ) 9,
        (if a = (t : ℤ) then (1 : ℕ) else 0) = if t = a.toNat then 1 else 0 := by
      intro t _
      have hiff : (a = (t : ℤ)) ↔ (t = a.toNat) := by omega
      by_cases h2 : t = a.toNat
      · rw [if_pos h2, if_pos (hiff.mpr h2)]
      · rw [if_neg h2, if_neg (fun hc => h2 (hiff.mp hc))]
    have hsum : Finset.sum (Finset.Icc (1 : ℕ) 9)
          (fun t : ℕ => if a = (t : ℤ) then (1 : ℕ) else 0) =
        Finset.sum (Finset.Icc (1 : ℕ) 9)
          (fun t : ℕ => if t = a.toNat then 1 else 0) :=
      Finset.sum_congr rfl hcongr
    rw [hsum, Finset.sum_ite_eq' (Finset.Icc (1 : ℕ) 9) a.toNat (fun _ => (1 : ℕ))]
    rw [if_pos (by simp only [Finset.mem_Icc]; omega)]
  · rw [if_neg h]
    apply Finset.sum_eq_zero
    intro t ht
    simp only [Finset.mem_Icc] at ht
    rw [if_neg (by omega)]

lemma sum_type_counts (rows : List ℤ) :
    Finset.sum (Finset.Icc 1 9) (fun t => type_counts rows t) =
      rows.countP (fun x => decide (1 ≤ x ∧ x ≤ 9)) := by
  induction rows with
  | nil => simp [type_counts]
  | cons a rows ih =>
    have hstep : ∀ t : ℕ, type_counts (a :: rows) t =
        type_counts rows t + if a = (t : ℤ) then 1 else 0 := by
      intro t
      unfold type_counts
      rw [List.countP_cons]
      by_cases h : a = (t : ℤ)
      · rw [if_pos h, if_pos (by simp [h])]
      · rw [if_neg h, if_neg (by simp [h])]
    calc Finset.sum (Finset.Icc 1 9) (fun t => type_counts (a :: rows) t)
        = Finset.sum (Finset.Icc 1 9)
            (fun t => type_counts rows t + if a = (t : ℤ) then 1 else 0) := by
          exact Finset.sum_congr rfl (fun t _ => hstep t)
      _ = Finset.sum (Finset.Icc 1 9) (fun t => type_counts rows t) +
            Finset.sum (Finset.Icc 1 9) (fun t : ℕ => if a = (t : ℤ) then 1 else 0) := by
          rw [Finset.sum_add_distrib]
      _ = rows.countP (fun x => decide (1 ≤ x ∧ x ≤ 9)) +
            (if 1 ≤ a ∧ a ≤ 9 then 1 else 0) := by
          rw [ih, indicator_sum_icc]
      _ = (a :: rows).countP (fun x => decide (1 ≤ x ∧ x ≤ 9)) := by
          rw [List.countP_cons]
          by_cases h : 1 ≤ a ∧ a ≤ 9
          · rw [if_pos h, if_pos (by simpa using h)]
          · rw [if_neg h, if_neg (by simpa using h)]

lemma sum_type_counts_of_in_range (rows : List ℤ)
    (h : ∀ x ∈ rows, 1 ≤ x ∧ x ≤ 9) :
    Finset.sum (Finset.Icc 1 9) (fun t => type_counts rows t) = rows.length := by
  rw [sum_type_counts]
  apply List.countP_eq_length.mpr
  intro a ha
  simpa using h a ha

/-- Concrete team for C4/C5: nine rows, one member per category 1..9. -/
def nine_rows : List ℤ := [1, 2, 3, 4, 5, 6, 7, 8, 9]

lemma sum_counts_real (rows : List ℤ) (h : ∀ x ∈ rows, 1 ≤ x ∧ x ≤ 9) :
    Finset.sum (Finset.Icc 1 9) (fun u => (type_counts rows u : ℝ)) =
      (rows.length : ℝ) := by
  calc Finset.sum (Finset.Icc 1 9) (fun u => (type_counts rows u : ℝ))
      = ((Finset.sum (Finset.Icc 1 9) (fun u => type_counts rows u) : ℕ) : ℝ) := by
        rw [Nat.cast_sum]
    _ = (rows.length : ℝ) := by rw [sum_type_counts_of_in_range rows h]

/-- C4: for every team whose rows all have top categories in 1..9, the
balance score equals `max(0, 100 * (1 - std/max_std))` rounded to 1
decimal with `std` the population standard deviation of the 9 counts and
`max_std = sqrt(total^2 / 9)`; the empty team yields balance 0.0 with
all nine categories missing; nine rows covering each category once yield
balance 100.0. -/
theorem team_balance_score_formula :
    (∀ rows : List ℤ, (∀ x ∈ rows, 1 ≤ x ∧ x ≤ 9) →
      balance_score rows = balance_score_spec rows) ∧
    balance_score [] = 0 ∧
    missing_types [] = List.range' 1 9 ∧
    balance_score nine_rows = 100 := by
  refine ⟨?_, by simp [balance_score], by simp [missing_types], ?_⟩
  · intro rows h
    by_cases hrows : rows = []
    · rw [hrows]
      simp [balance_score, balance_score_spec]
    · have hlen : 0 < rows.length := List.length_pos.mpr hrows
      have hpos : 0 < max_possible_std rows := by
        unfold max_possible_std
        apply Real.sqrt_pos.mpr
        have hl : (0 : ℝ) < (rows.length : ℝ) := by exact_mod_cast hlen
        positivity
      have hstd : population_std_counts rows = Real.sqrt (team_variance rows) := by
        unfold population_std_counts team_variance
        rw [sum_counts_real rows h]
      unfold balance_score balance_score_spec
      rw [if_neg hrows, if_neg hrows, if_pos hpos, hstd]
  · have hcounts : ∀ t ∈ Finset.Icc (1 : ℕ) 9, type_counts nine_rows t = 1 := by
      decide
    have hlen : nine_rows.length = 9 := by decide
    have hvar : team_variance nine_rows = 0 := by
      unfold team_variance
      rw [Finset.sum_eq_zero, zero_div]
      intro t ht
      rw [hcounts t ht, hlen]
      norm_num
    have hpos : 0 < max_possible_std nine_rows := by
      unfold max_possible_std
      rw [hlen]
      apply Real.sqrt_pos.mpr
      norm_num
    unfold balance_score
    rw [if_neg (by decide), if_pos hpos, hvar, Real.sqrt_zero, zero_div]
    norm_num
    unfold round1R
    have h1000 : (10 : ℝ) * 100 = ((1000 : ℤ) : ℝ) := by norm_num
    rw [h1000, round_intCast]
    norm_num

/-- Witness for C4 at the nine-row team covering each category once. -/
theorem team_balance_score_formula_witness :
    balance_score nine_rows = balance_score_spec nine_rows :=
  team_balance_score_formula.1 nine_rows (by decide)

/-- C5: for every non-empty team whose rows all have top categories in
1..9, `underrepresented_types` is the set of categories with count
exactly 1 when the team has more than 3 members and empty otherwise, and
`dominant_types` is the set of categories whose count reaches
`max(2, total/9 * 1.5)`; for the nine-row team covering each category
once the underrepresented set is all of 1..9 and the dominant set is
empty. -/
theorem team_underrepresented_dominant :
    (∀ rows : List ℤ, rows ≠ [] → (∀ x ∈ rows, 1 ≤ x ∧ x ≤ 9) →
      underrepresented_types rows =
        (if 3 < rows.length then
          (List.range' 1 9).filter (fun t => type_counts rows t = 1)
         else []) ∧
      dominant_types rows =
        (List.range' 1 9).filter
          (fun t =>
            max 2 ((rows.length : ℚ) / 9 * (3 / 2)) ≤ (type_counts rows t : ℚ))) ∧
    underrepresented_types nine_rows = List.range' 1 9 ∧
    dominant_types nine_rows = [] := by
  have hc : ∀ t ∈ List.range' 1 9, type_counts nine_rows t = 1 := by decide
  have hth : dominant_threshold nine_rows.length = 2 := by
    unfold dominant_threshold
    rw [show nine_rows.length = 9 from by decide]
    rw [max_eq_left (by norm_num)]
  have hdom : dominant_types nine_rows = [] := by
    unfold dominant_types
    rw [if_neg (by decide), if_pos (by decide)]
    rw [List.filter_eq_nil_iff]
    intro t ht
    simp only [decide_eq_true_eq]
    rw [hth, hc t ht]
    norm_num
  refine ⟨?_, by decide, hdom⟩
  intro rows hne _
  constructor
  · unfold underrepresented_types
    rw [if_neg hne]
    by_cases h3 : 3 < rows.length
    · rw [if_pos h3]
      apply List.filter_congr
      intro t _
      simp [h3]
    · rw [if_neg h3]
      rw [List.filter_eq_nil_iff]
      intro t _
      simp [h3]
  · unfold dominant_types dominant_threshold
    rw [if_neg hne, if_pos (List.length_pos.mpr hne)]

/-- Witness for C5 at the nine-row team covering each category once. -/
theorem team_underrepresented_dominant_witness :
    underrepresented_types nine_rows =
      (if 3 < nine_rows.length then
        (List.range' 1 9).filter (fun t => type_counts nine_rows t = 1)
       else []) ∧
    dominant_types nine_rows =
      (List.range' 1 9).filter
        (fun t =>
          max 2 ((nine_rows.length : ℚ) / 9 * (3 / 2)) ≤
            (type_counts nine_rows t : ℚ)) :=
  team_underrepresented_dominant.1 nine_rows (by decide) (by decide)

/-- Concrete team for C10: one row of category 1 and one row whose
top-type value 0 lies outside 1..9. -/
def two_rows : List ℤ := [1, 0]

/-- C10: a team row is counted toward exactly one category exactly when
its top-type value lies in 1..9 (the nine counts sum to the number of
in-range rows), a row outside 1..9 still counts toward `total_members`
(so the counts sum falls strictly short of `total_members`), and for the
concrete team [1, 0] the distribution percentages sum to 50, strictly
less than 100. -/
theorem team_counts_partition :
    (∀ rows : List ℤ,
      Finset.sum (Finset.Icc 1 9) (fun t => type_counts rows t) =
        rows.countP (fun x => decide (1 ≤ x ∧ x ≤ 9))) ∧
    (∀ rows : List ℤ, ∀ x ∈ rows, ¬(1 ≤ x ∧ x ≤ 9) →
      Finset.sum (Finset.Icc 1 9) (fun t => type_counts rows t) <
        total_members rows) ∧
    total_members two_rows = 2 ∧
    Finset.sum (Finset.Icc 1 9) (fun t => type_counts two_rows t) = 1 ∧
    Finset.sum (Finset.Icc 1 9) (fun t => percentage two_rows t) = 50 ∧
    Finset.sum (Finset.Icc 1 9) (fun t => percentage two_rows t) < 100 := by
  have hp1 : percentage two_rows 1 = 50 := by
    unfold percentage
    rw [show type_counts two_rows 1 = 1 from by decide,
      show two_rows.length = 2 from by decide]
    norm_num [round1Q]
  have hp0 : ∀ t ∈ Finset.Icc (1 : ℕ) 9, t ≠ 1 → percentage two_rows t = 0 := by
    intro t ht hne
    unfold percentage
    rw [show two_rows.length = 2 from by decide]
    have hcount : type_counts two_rows t = 0 := by
      simp only [Finset.mem_Icc] at ht
      obtain ⟨ht1, ht2⟩ := ht
      interval_cases t <;> first | exact absurd rfl hne | decide
    rw [hcount]
    norm_num [round1Q]
  have hsum50 : Finset.sum (Finset.Icc (1 : ℕ) 9)
      (fun t => percentage two_rows t) = 50 := by
    calc Finset.sum (Finset.Icc (1 : ℕ) 9) (fun t => percentage two_rows t)
        = Finset.sum (Finset.Icc (1 : ℕ) 9)
            (fun t => if t = 1 then (50 : ℚ) else 0) := by
          apply Finset.sum_congr rfl
          intro t ht
          by_cases h1 : t = 1
          · rw [if_pos h1, h1, hp1]
          · rw [if_neg h1, hp0 t ht h1]
      _ = 50 := by
          rw [Finset.sum_ite_eq' (Finset.Icc (1 : ℕ) 9) 1 (fun _ => (50 : ℚ))]
          rw [if_pos (by decide)]
  refine ⟨sum_type_counts, ?_, by decide, by decide, hsum50,
    by rw [hsum50]; norm_num⟩
  intro rows x hmem hx
  rw [sum_type_counts]
  rcases lt_or_eq_of_le (List.countP_le_length
      (p := fun x => decide (1 ≤ x ∧ x ≤ 9)) (l := rows)) with hlt | heq
  · exact hlt
  · exfalso
    have := List.countP_eq_length.mp heq x hmem
    simp only [decide_eq_true_eq] at this
    exact hx this

/-- Witness for C10: the out-of-range row 0 in the team [1, 0] makes the
nine counts sum strictly less than the member total. -/
theorem team_counts_partition_witness :
    Finset.sum (Finset.Icc 1 9) (fun t => type_counts two_rows t) <
      total_members two_rows :=
  team_counts_partition.2.1 two_rows 0 (by decide) (by decide)

/-- Embeds the `dangerous_chars` list of `sanitize_input`
(`app/core/security.py`): the characters < > " ' & NUL, written via
their code points. -/
def dangerous_chars : List Char :=
  [Char.ofNat 60, Char.ofNat 62, Char.ofNat 34, Char.ofNat 39,
   Char.ofNat 38, Char.ofNat 0]

/-- Embeds `sanitize_input` (`app/core/security.py`): empty input stays
empty; otherwise strip surrounding whitespace, truncate to the length
bound, and delete every dangerous character. -/
def sanitize_input (text : String) (max_length : Nat) : String :=
  if text = "" then ""
  else String.mk
    ((text.trim.take max_length).toList.filter
      (fun ch => !(dangerous_chars.contains ch)))

/-- Embeds `settings.name_max_length` (`app/core/config.py`, default
100). -/
def name_max_length : Nat := 100

/-- Embeds the pydantic `EnneagramScores` schema: one integer total per
category, as produced by `EnneagramScores.from_dict`. -/
structure EnneagramScores where
  type_1 : ℤ
  type_2 : ℤ
  type_3 : ℤ
  type_4 : ℤ
  type_5 : ℤ
  type_6 : ℤ
  type_7 : ℤ
  type_8 : ℤ
  type_9 : ℤ
deriving DecidableEq, Repr

/-- Embeds `EnneagramScores.from_dict`: read the nine category totals
out of a score profile. -/
def EnneagramScores.from_dict (s : Nat → ℤ) : EnneagramScores :=
  ⟨s 1, s 2, s 3, s 4, s 5, s 6, s 7, s 8, s 9⟩

/-- Embeds the pydantic `EnneagramResult` schema as built by
`QuizService.process_quiz_submission` (which leaves `team` at its
default). -/
structure EnneagramResult where
  name : String
  top_type : Option Nat
  scores : EnneagramScores
  validity : ValidityStats
  delete_token : String
  tied_types : Option (List Nat)

/-- Embeds the answer-validation loop of
`QuizService.process_quiz_submission`: walk the question bank in order,
collecting each question's raw answer value and raising
`ValueError(f"Missing answer for question {question.id}")` at the first
question whose answer is absent. -/
def collect_values : List Question → (Nat → Option ℤ) → Except String (List ℤ)
  | [], _ => Except.ok []
  | q :: qs, answers =>
    match answers q.id with
    | none => Except.error ("Missing answer for question " ++ toString q.id)
    | some v => (collect_values qs answers).map (fun rest => v :: rest)

/-- Embeds `QuizService.process_quiz_submission`: sanitize the name,
validate answer completeness against the bank, then score, classify,
compute validity statistics, and assemble the result with the
externally generated delete token; `tied_types` is exposed only when
more than one category tied. -/
noncomputable def process_quiz_submission (bank : List Question) (name : String)
    (answers : Nat → Option ℤ) (delete_token : String) :
    Except String EnneagramResult :=
  match collect_values bank answers with
  | Except.error e => Except.error e
  | Except.ok all_values =>
    let type_scores := calculate_type_scores bank answers
    let top := determine_top_type type_scores
    Except.ok ⟨sanitize_input name name_max_length, top.1,
      EnneagramScores.from_dict type_scores,
      calculate_validity_stats all_values, delete_token,
      if 1 < top.2.length then some top.2 else none⟩

/-- Answer set for `bank_ex` with question 2 unanswered. -/
def answers_missing : Nat → Option ℤ := fun i => if i = 1 then some 2 else none

/-- Answer set for `bank_ex` with an out-of-range value 7 for question 2
and an extra entry for the unknown question id 3. -/
def answers_invalid : Nat → Option ℤ :=
  fun i =>
    if i = 1 then some 2 else if i = 2 then some 7
    else if i = 3 then some 1 else none

lemma collect_values_missing (answers : Nat → Option ℤ) :
    ∀ bank : List Question, (∃ q ∈ bank, answers q.id = none) →
      ∃ q ∈ bank, answers q.id = none ∧
        collect_values bank answers =
          Except.error ("Missing answer for question " ++ toString q.id) := by
  intro bank
  induction bank with
  | nil =>
    intro h
    obtain ⟨q, hq, _⟩ := h
    exact absurd hq (List.not_mem_nil q)
  | cons q qs ih =>
    intro h
    cases hq : answers q.id with
    | none =>
      refine ⟨q, List.mem_cons_self q qs, hq, ?_⟩
      unfold collect_values
      rw [hq]
    | some v =>
      have h' : ∃ r ∈ qs, answers r.id = none := by
        obtain ⟨r, hr, hnone⟩ := h
        rcases List.mem_cons.mp hr with hre | hr'
        · rw [hre] at hnone
          rw [hq] at hnone
          exact absurd hnone (by simp)
        · exact ⟨r, hr', hnone⟩
      obtain ⟨r, hr, hnone, hcoll⟩ := ih h'
      refine ⟨r, List.mem_cons_of_mem q hr, hnone, ?_⟩
      unfold collect_values
      rw [hq, hcoll]
      rfl

lemma collect_values_ok_iff (answers : Nat → Option ℤ) :
    ∀ bank : List Question,
      (∃ vs, collect_values bank answers = Except.ok vs) ↔
        ∀ q ∈ bank, (answers q.id).isSome := by
  intro bank
  induction bank with
  | nil =>
    constructor
    · intro _ q hq
      exact absurd hq (List.not_mem_nil q)
    · intro _
      exact ⟨[], rfl⟩
  | cons q qs ih =>
    cases hq : answers q.id with
    | none =>
      constructor
      · intro hvs
        obtain ⟨vs, hvs⟩ := hvs
        unfold collect_values at hvs
        rw [hq] at hvs
        exact Except.noConfusion hvs
      · intro hall
        have := hall q (List.mem_cons_self q qs)
        rw [hq] at this
        simp at this
    | some v =>
      constructor
      · intro hvs r hr
        obtain ⟨vs, hvs⟩ := hvs
        rcases List.mem_cons.mp hr with hre | hr'
        · rw [hre, hq]
          rfl
        · apply (ih.mp ?_) r hr'
          unfold collect_values at hvs
          rw [hq] at hvs
          cases hcoll : collect_values qs answers with
          | error e =>
            rw [hcoll] at hvs
            exact Except.noConfusion hvs
          | ok vs' => exact ⟨vs', rfl⟩
      · intro hall
        have hqs : ∀ r ∈ qs, (answers r.id).isSome :=
          fun r hr => hall r (List.mem_cons_of_mem q hr)
        obtain ⟨vs, hvs⟩ := ih.mpr hqs
        refine ⟨v :: vs, ?_⟩
        unfold collect_values
        rw [hq, hvs]
        rfl

/-- C7 counterexample: the submission for `bank_ex` carrying the
out-of-range value 7 for question 2 and an extra entry for the unknown
id 3 is accepted, and the out-of-range value is scored into category 2 —
it is not rejected as the claim states. -/
theorem submission_no_range_or_extra_check :
    (process_quiz_submission bank_ex "A" answers_invalid "tok").toOption.map
      (fun r => r.scores.type_2) = some 7 := by
  rfl

/-- C7 (amended): a submission is accepted exactly when its answer set
contains an entry for every question in the question bank; out-of-range
values and extra entries for unknown question ids do not cause
rejection. -/
theorem submission_acceptance_iff_complete (bank : List Question) (name : String)
    (answers : Nat → Option ℤ) (token : String) :
    (∃ r, process_quiz_submission bank name answers token = Except.ok r) ↔
      ∀ q ∈ bank, (answers q.id).isSome := by
  rw [← collect_values_ok_iff answers bank]
  constructor
  · intro hr
    obtain ⟨r, hr⟩ := hr
    unfold process_quiz_submission at hr
    cases hcoll : collect_values bank answers with
    | error e =>
      rw [hcoll] at hr
      exact Except.noConfusion hr
    | ok vs => exact ⟨vs, rfl⟩
  · intro hvs
    obtain ⟨vs, hvs⟩ := hvs
    unfold process_quiz_submission
    rw [hvs]
    exact ⟨_, rfl⟩

/-- Witness for C7 (amended): the complete answer set for `bank_ex` is
accepted. -/
theorem submission_acceptance_iff_complete_witness :
    ∃ r, process_quiz_submission bank_ex "A" answers_ex "tok" = Except.ok r :=
  (submission_acceptance_iff_complete bank_ex "A" answers_ex "tok").mpr
    (by decide)

/-- C8: when at least one question of the bank has no answer, the
pipeline fails with the error naming a missing question id and returns
no result — no score profile or top category is produced. -/
theorem pipeline_missing_answer (bank : List Question) (name : String)
    (answers : Nat → Option ℤ) (token : String)
    (h : ∃ q ∈ bank, answers q.id = none) :
    ∃ q ∈ bank, answers q.id = none ∧
      process_quiz_submission bank name answers token =
        Except.error ("Missing answer for question " ++ toString q.id) ∧
      ∀ r, process_quiz_submission bank name answers token ≠ Except.ok r := by
  obtain ⟨q, hqmem, hnone, hcoll⟩ := collect_values_missing answers bank h
  have hproc : process_quiz_submission bank name answers token =
      Except.error ("Missing answer for question " ++ toString q.id) := by
    unfold process_quiz_submission
    rw [hcoll]
  refine ⟨q, hqmem, hnone, hproc, ?_⟩
  intro r hr
  rw [hproc] at hr
  exact Except.noConfusion hr

/-- Witness for C8: `bank_ex` with question 2 unanswered fails with the
missing-answer error. -/
theorem pipeline_missing_answer_witness :
    ∃ q ∈ bank_ex, answers_missing q.id = none ∧
      process_quiz_submission bank_ex "N" answers_missing "tok" =
        Except.error ("Missing answer for question " ++ toString q.id) ∧
      ∀ r, process_quiz_submission bank_ex "N" answers_missing "tok" ≠
        Except.ok r :=
  pipeline_missing_answer bank_ex "N" answers_missing "tok" (by decide)

/-- Projection of an `EnneagramResult` onto everything except the
externally assigned `delete_token`. -/
def result_data (r : EnneagramResult) :
    String × Option Nat × EnneagramScores × ℝ × ℝ × Option (List Nat) :=
  (r.name, r.top_type, r.scores, r.validity.mean, r.validity.sd, r.tied_types)

/-- C9: the pipeline is deterministic up to the externally assigned
delete token: two invocations with identical name and answers (the
source pipeline takes no team argument) agree on name, top category,
score profile, validity statistics and tied set, whatever tokens are
supplied. -/
theorem pipeline_deterministic_up_to_token (bank : List Question)
    (name : String) (answers : Nat → Option ℤ) (token₁ token₂ : String) :
    (process_quiz_submission bank name answers token₁).map result_data =
      (process_quiz_submission bank name answers token₂).map result_data := by
  unfold process_quiz_submission
  cases collect_values bank answers <;> rfl
